import Mathlib

/-!
Shallow embedding of the Flappy-Bird game core in `src/app/GameCanvas.tsx`.

Numbers are modelled as rationals (the source uses JS numbers, and every
constant and operation involved — additions of 0.4, -2, -6, 0.5 and the
comparisons — is exact in ℚ for the quantities the claims speak about).

Mutable refs (`birdRef`, `velocityYRef`, `pipesRef`, `scoreRef`,
`gameOverRef`, React state `running`/`showMenu`/`loaded`, and the presence
of the spawn interval `placePipesIntervalRef`) become fields of a single
`GameState` record.  `Math.random()` becomes an explicit parameter `r`.
Rendering, images and audio are side effects with no bearing on the state
transitions and are omitted.
-/

namespace Flappy

/-- `const BOARD_W = 360`. -/
def BOARD_W : ℚ := 360

/-- `const BOARD_H = 640`. -/
def BOARD_H : ℚ := 640

/-- `const BIRD_W = 34`. -/
def BIRD_W : ℚ := 34

/-- `const BIRD_H = 24`. -/
def BIRD_H : ℚ := 24

/-- `const BIRD_X = BOARD_W / 8`. -/
def BIRD_X : ℚ := BOARD_W / 8

/-- `const BIRD_Y = BOARD_H / 2`. -/
def BIRD_Y : ℚ := BOARD_H / 2

/-- `const PIPE_W = 64`. -/
def PIPE_W : ℚ := 64

/-- `const PIPE_H = 512`. -/
def PIPE_H : ℚ := 512

/-- `const PIPE_X = BOARD_W`. -/
def PIPE_X : ℚ := BOARD_W

/-- `const gravity = 0.4`. -/
def gravity : ℚ := 2/5

/-- `const FRAME_TICK_RATE = 6`. -/
def FRAME_TICK_RATE : Nat := 6

/-- `birdFramesRef.current.length`: four frame images are always pushed. -/
def FRAME_COUNT : Nat := 4

/-- The bird rectangle `birdRef.current = { x, y, width, height }`. -/
structure Rect where
  x : ℚ
  y : ℚ
  width : ℚ
  height : ℚ
deriving Repr, DecidableEq

/-- The `Pipe` record (the `img` field is presentation-only and omitted;
`passed?: boolean` defaults to absent/false and is always set on spawn). -/
structure Pipe where
  x : ℚ
  y : ℚ
  width : ℚ
  height : ℚ
  passed : Bool
deriving Repr, DecidableEq

/-- The whole mutable state of the component: refs, React state, and
whether the pipe-spawning interval is installed. -/
structure GameState where
  bird : Rect
  velocityY : ℚ
  pipes : List Pipe
  score : ℚ
  gameOver : Bool
  running : Bool
  showMenu : Bool
  loaded : Bool
  spawnActive : Bool
  frameIndex : Nat
  frameTick : Nat
deriving Repr, DecidableEq

/-- `detectCollision(a, b)` from the source:
`a.x < b.x + b.width && a.x + a.width > b.x && a.y < b.y + b.height && a.y + a.height > b.y`. -/
def detectCollision (a : Rect) (b : Pipe) : Bool :=
  decide (a.x < b.x + b.width) && decide (a.x + a.width > b.x) &&
    decide (a.y < b.y + b.height) && decide (a.y + a.height > b.y)

/-- The per-pipe transformation inside the loop of `step`:
`pipe.x += -2`, and the passed flag flips when
`!pipe.passed && bird.x > pipe.x + pipe.width` (with the moved x). -/
def tickPipe (b : Rect) (p : Pipe) : Pipe :=
  let p1 : Pipe := { p with x := p.x + (-2) }
  if !p1.passed && decide (b.x > p1.x + p1.width) then { p1 with passed := true } else p1

/-- Whether the loop body of `step` flips this pipe's passed flag and adds
0.5 to the score this tick (the condition is read on the moved pipe). -/
def newlyPassed (b : Rect) (p : Pipe) : Bool :=
  !p.passed && decide (b.x > p.x + (-2) + p.width)

/-- The `for` loop over `pipesRef.current` in `step`: moves each pipe left
by 2, applies the scoring side effect (`scoreRef.current += 0.5`,
`pipe.passed = true`), and ors the collision test into the game-over flag.
Returns (updated pipes, updated score, updated game-over flag). -/
def stepPipes (b : Rect) : List Pipe → ℚ → Bool → List Pipe × ℚ × Bool
  | [], score, over => ([], score, over)
  | p :: rest, score, over =>
    let p1 : Pipe := { p with x := p.x + (-2) }
    let hit := !p1.passed && decide (b.x > p1.x + p1.width)
    let p2 : Pipe := if hit then { p1 with passed := true } else p1
    let score2 := if hit then score + 1/2 else score
    let over2 := over || detectCollision b p2
    let rec3 := stepPipes b rest score2 over2
    (p2 :: rec3.1, rec3.2.1, rec3.2.2)

/-- One invocation of `step(now)` (one animation-frame tick).  When
`running` is false the callback returns without touching any state.
Otherwise: frame animation advances, physics runs
(`velocityYRef.current += gravity; birdRef.current.y += velocityYRef.current`),
the pipe loop runs, off-screen pipes are shifted from the front
(`while (pipes.length > 0 && pipes[0].x < -PIPE_W) pipes.shift()`), the
ground check runs (`bird.y > BOARD_H - BIRD_H`), and on game over the
spawn interval is cleared, the menu is shown and `running` is set false
(the callback is not re-armed). -/
def step (s : GameState) : GameState :=
  if !s.running then s else
  let ft := s.frameTick + 1
  let frameTick2 := if FRAME_TICK_RATE ≤ ft then 0 else ft
  let frameIndex2 := if FRAME_TICK_RATE ≤ ft then (s.frameIndex + 1) % FRAME_COUNT else s.frameIndex
  let v := s.velocityY + gravity
  let b : Rect := { s.bird with y := s.bird.y + v }
  let pr := stepPipes b s.pipes s.score s.gameOver
  let ps2 := pr.1.dropWhile (fun p => decide (p.x < -PIPE_W))
  let over2 := pr.2.2 || decide (b.y > BOARD_H - BIRD_H)
  if over2 then
    { s with frameTick := frameTick2, frameIndex := frameIndex2,
             velocityY := v, bird := b, pipes := ps2, score := pr.2.1,
             gameOver := true, spawnActive := false, showMenu := true, running := false }
  else
    { s with frameTick := frameTick2, frameIndex := frameIndex2,
             velocityY := v, bird := b, pipes := ps2, score := pr.2.1,
             gameOver := false }

/-- The upper pipe created by `spawnPipePair` for random draw `r`
(`randomPipeY = -PIPE_H / 4 - r * (PIPE_H / 2)`). -/
def topPipe (r : ℚ) : Pipe :=
  { x := PIPE_X, y := -PIPE_H / 4 - r * (PIPE_H / 2),
    width := PIPE_W, height := PIPE_H, passed := false }

/-- The lower pipe created by `spawnPipePair` for random draw `r`
(`y = randomPipeY + PIPE_H + openingSpace`, `openingSpace = BOARD_H / 4`). -/
def bottomPipe (r : ℚ) : Pipe :=
  { x := PIPE_X, y := (-PIPE_H / 4 - r * (PIPE_H / 2)) + PIPE_H + BOARD_H / 4,
    width := PIPE_W, height := PIPE_H, passed := false }

/-- `spawnPipePair()`: pushes the top then the bottom pipe onto the pipe
sequence; `r` stands for the `Math.random()` draw. -/
def spawnPipePair (r : ℚ) (s : GameState) : GameState :=
  { s with pipes := s.pipes ++ [topPipe r, bottomPipe r] }

/-- `startGame()`: resets bird, velocity, pipes, score and game-over flag,
spawns the first pair, (re)installs the spawn interval, starts the loop
and hides the menu. -/
def startGame (r : ℚ) (s : GameState) : GameState :=
  let s1 : GameState :=
    { s with bird := { x := BIRD_X, y := BIRD_Y, width := BIRD_W, height := BIRD_H },
             velocityY := 0, pipes := [], score := 0, gameOver := false }
  let s2 := spawnPipePair r s1
  { s2 with spawnActive := true, running := true, showMenu := false }

/-- One firing of the `setInterval` callback installed by `startGame`:
fires only while the interval exists, and its body is
`if (!gameOverRef.current) spawnPipePair()`. -/
def spawnTick (r : ℚ) (s : GameState) : GameState :=
  if s.spawnActive && !s.gameOver then spawnPipePair r s else s

/-- `flap()`: if not running, start a game when the menu is up and assets
are loaded, else do nothing; if running but game over, restart; otherwise
set the velocity to the fixed impulse `-6`. -/
def flap (r : ℚ) (s : GameState) : GameState :=
  if !s.running then
    (if s.showMenu && s.loaded then startGame r s else s)
  else if s.gameOver then startGame r s
  else { s with velocityY := -6 }

/-- The bird rectangle right after the physics update of a tick. -/
def birdAfter (s : GameState) : Rect :=
  { s.bird with y := s.bird.y + (s.velocityY + gravity) }

/-- The game-over flag at the end of a tick that started in state `s`:
previous flag, or any collision, or the ground check. -/
def overAfter (s : GameState) : Bool :=
  (s.gameOver || s.pipes.any (fun p => detectCollision (birdAfter s) (tickPipe (birdAfter s) p))) ||
    decide ((birdAfter s).y > BOARD_H - BIRD_H)

/-- Checks that a pipe list consists of adjacent pairs sharing an x
coordinate (upper and lower member of each spawned pair). -/
def pairedB : List Pipe → Bool
  | [] => true
  | [_] => false
  | a :: b :: rest => decide (a.x = b.x) && pairedB rest

/-- A concrete idle state: assets loaded, menu up, nothing running. -/
def sIdle : GameState :=
  { bird := { x := BIRD_X, y := BIRD_Y, width := BIRD_W, height := BIRD_H },
    velocityY := 0, pipes := [], score := 0, gameOver := false, running := false,
    showMenu := true, loaded := true, spawnActive := false, frameIndex := 0, frameTick := 0 }

/-- A concrete running state: a fresh session started from `sIdle`. -/
def sRun : GameState := startGame 0 sIdle

/-- A concrete running state with two pipe pairs, the older pair one step
away from scrolling fully off screen. -/
def sRecycle : GameState :=
  { sRun with pipes :=
      [{ x := -63, y := 0, width := PIPE_W, height := PIPE_H, passed := true },
       { x := -63, y := 676, width := PIPE_W, height := PIPE_H, passed := true },
       { x := 100, y := 0, width := PIPE_W, height := PIPE_H, passed := false },
       { x := 100, y := 676, width := PIPE_W, height := PIPE_H, passed := false }] }

/-- A concrete post-game-over state: loop stopped, menu up, one pipe pair
still on screen. -/
def sOver : GameState :=
  { sIdle with
      gameOver := true,
      pipes := [{ x := 100, y := 0, width := PIPE_W, height := PIPE_H, passed := false },
                { x := 100, y := 676, width := PIPE_W, height := PIPE_H, passed := false }] }

/-- A concrete running state whose bird is about to cross the ground bound. -/
def sFall : GameState :=
  { sRun with bird := { x := BIRD_X, y := 650, width := BIRD_W, height := BIRD_H } }

/-! ### Helper lemmas about the pipe loop -/

/-- The pipe list returned by the loop is the pointwise `tickPipe` image. -/
theorem stepPipes_fst (b : Rect) (ps : List Pipe) (sc : ℚ) (ov : Bool) :
    (stepPipes b ps sc ov).1 = ps.map (tickPipe b) := by
  induction ps generalizing sc ov with
  | nil => rfl
  | cons p rest ih => simp [stepPipes, tickPipe, ih]

/-- The score returned by the loop adds half a point per newly passed pipe. -/
theorem stepPipes_score (b : Rect) (ps : List Pipe) (sc : ℚ) (ov : Bool) :
    (stepPipes b ps sc ov).2.1 = sc + (ps.countP (fun p => newlyPassed b p) : ℚ) / 2 := by
  induction ps generalizing sc ov with
  | nil => simp [stepPipes]
  | cons p rest ih =>
    simp only [stepPipes, ih, List.countP_cons, newlyPassed]
    by_cases hhit : (!p.passed && decide (b.x > p.x + (-2) + p.width)) = true
    · simp only [hhit, if_true]
      push_cast
      ring
    · simp only [hhit, if_false, Bool.false_eq_true]
      push_cast
      ring

/-- The game-over flag returned by the loop ors in a collision test per pipe. -/
theorem stepPipes_over (b : Rect) (ps : List Pipe) (sc : ℚ) (ov : Bool) :
    (stepPipes b ps sc ov).2.2 = (ov || ps.any (fun p => detectCollision b (tickPipe b p))) := by
  induction ps generalizing sc ov with
  | nil => simp [stepPipes]
  | cons p rest ih => simp [stepPipes, tickPipe, ih, Bool.or_assoc]

/-- `step` does nothing when the loop is not running. -/
theorem step_not_running (s : GameState) (h : s.running = false) : step s = s := by
  simp [step, h]

/-- Closed form of one running tick. -/
theorem step_run (s : GameState) (h : s.running = true) :
    step s =
      { s with
        frameTick := if FRAME_TICK_RATE ≤ s.frameTick + 1 then 0 else s.frameTick + 1,
        frameIndex := if FRAME_TICK_RATE ≤ s.frameTick + 1 then (s.frameIndex + 1) % FRAME_COUNT
          else s.frameIndex,
        velocityY := s.velocityY + gravity,
        bird := birdAfter s,
        pipes := (s.pipes.map (tickPipe (birdAfter s))).dropWhile (fun p => decide (p.x < -PIPE_W)),
        score := s.score + (s.pipes.countP (fun p => newlyPassed (birdAfter s) p) : ℚ) / 2,
        gameOver := overAfter s,
        running := !overAfter s,
        spawnActive := s.spawnActive && !overAfter s,
        showMenu := s.showMenu || overAfter s } := by
  simp only [step, h, Bool.not_true, Bool.false_eq_true, if_false, stepPipes_fst,
    stepPipes_score, stepPipes_over]
  split
  next hcond =>
    have hov : overAfter s = true := hcond
    simp only [hov, Bool.not_true, Bool.or_true, Bool.and_false]
    rfl
  next hcond =>
    have hov : overAfter s = false := Bool.eq_false_iff.mpr hcond
    simp only [hov, Bool.not_false, Bool.or_false, Bool.and_true]
    rfl

/-- A tick moves every pipe exactly 2 to the left. -/
theorem tickPipe_x (b : Rect) (p : Pipe) : (tickPipe b p).x = p.x + (-2) := by
  simp only [tickPipe]
  split <;> rfl

/-- A tick does not change a pipe's y. -/
theorem tickPipe_y (b : Rect) (p : Pipe) : (tickPipe b p).y = p.y := by
  simp only [tickPipe]
  split <;> rfl

/-- A tick does not change a pipe's width. -/
theorem tickPipe_width (b : Rect) (p : Pipe) : (tickPipe b p).width = p.width := by
  simp only [tickPipe]
  split <;> rfl

/-- A tick does not change a pipe's height. -/
theorem tickPipe_height (b : Rect) (p : Pipe) : (tickPipe b p).height = p.height := by
  simp only [tickPipe]
  split <;> rfl

/-- The passed flag after a tick: it stays once set, and is set exactly by
the scoring condition. -/
theorem tickPipe_passed (b : Rect) (p : Pipe) :
    (tickPipe b p).passed = (p.passed || newlyPassed b p) := by
  simp only [tickPipe, newlyPassed]
  split
  next hcond => simp [hcond]
  next hcond => simp [Bool.eq_false_iff.mpr hcond]

/-! ### Claim theorems -/

/-- Claim C1: on every tick while the session is running, the physics update
first adds the gravity constant to the vertical velocity and then adds the
updated velocity to the bird's y position; the new velocity is exactly the
old velocity plus gravity for every prior velocity, with no clamping. -/
theorem tick_gravity_then_position (s : GameState) (h : s.running = true) :
    (step s).velocityY = s.velocityY + gravity ∧
    (step s).bird.y = s.bird.y + (s.velocityY + gravity) := by
  rw [step_run s h]
  exact ⟨rfl, rfl⟩

/-- Witness for C1 at the concrete state `sRun`. -/
theorem tick_gravity_then_position_witness :
    (step sRun).velocityY = sRun.velocityY + gravity ∧
    (step sRun).bird.y = sRun.bird.y + (sRun.velocityY + gravity) :=
  tick_gravity_then_position sRun rfl

/-- Claim C2: the pipe loop adds exactly half a point per pipe whose passed
flag flips this tick; a flip happens exactly when the flag was false and the
bird's left edge is past the moved pipe's right edge, and it sets the flag;
a pipe already passed is only moved, contributing nothing; and the score
after a running tick is never below the score before it. -/
theorem score_half_per_pipe_once (b : Rect) (ps : List Pipe) (sc : ℚ) (ov : Bool)
    (p : Pipe) (s : GameState) (hrun : s.running = true) :
    (stepPipes b ps sc ov).2.1 = sc + (ps.countP (fun q => newlyPassed b q) : ℚ) / 2 ∧
    (newlyPassed b p = true → p.passed = false ∧ (tickPipe b p).passed = true) ∧
    (p.passed = true → tickPipe b p = { p with x := p.x + (-2) }) ∧
    s.score ≤ (step s).score := by
  refine ⟨stepPipes_score b ps sc ov, ?_, ?_, ?_⟩
  · intro hnp
    have hcond : (!({ p with x := p.x + (-2) } : Pipe).passed &&
        decide (b.x > ({ p with x := p.x + (-2) } : Pipe).x +
          ({ p with x := p.x + (-2) } : Pipe).width)) = true := hnp
    have hpf : p.passed = false := by
      simp only [newlyPassed, Bool.and_eq_true, Bool.not_eq_eq_eq_not, Bool.not_true] at hnp
      exact hnp.1
    refine ⟨hpf, ?_⟩
    simp only [tickPipe]
    rw [if_pos hcond]
  · intro hpass
    simp [tickPipe, hpass]
  · rw [step_run s hrun]
    have h0 : (0:ℚ) ≤ (s.pipes.countP (fun q => newlyPassed (birdAfter s) q) : ℚ) / 2 := by
      positivity
    exact le_add_of_nonneg_right h0

/-- Witness for C2 at concrete inputs. -/
theorem score_half_per_pipe_once_witness :
    (stepPipes sRun.bird sRun.pipes 0 false).2.1 =
      0 + (sRun.pipes.countP (fun q => newlyPassed sRun.bird q) : ℚ) / 2 ∧
    (newlyPassed sRun.bird (topPipe 0) = true →
      (topPipe 0).passed = false ∧ (tickPipe sRun.bird (topPipe 0)).passed = true) ∧
    ((topPipe 0).passed = true →
      tickPipe sRun.bird (topPipe 0) = { topPipe 0 with x := (topPipe 0).x + (-2) }) ∧
    sRun.score ≤ (step sRun).score :=
  score_half_per_pipe_once sRun.bird sRun.pipes 0 false (topPipe 0) sRun rfl

/-- Claim C3: collision is exactly the axis-aligned bounding-box test
between the bird rectangle and a pipe rectangle; when any pipe of the tick
collides, the game-over flag is set within that same tick and the loop
stops; once the loop is stopped no tick changes any state, and the spawn
callback never spawns once game over is flagged. -/
theorem collision_aabb_gameover_same_tick (s : GameState) (h : s.running = true) :
    (∀ (a : Rect) (q : Pipe), detectCollision a q =
        (decide (a.x < q.x + q.width) && decide (a.x + a.width > q.x) &&
          decide (a.y < q.y + q.height) && decide (a.y + a.height > q.y))) ∧
    (∀ p ∈ s.pipes, detectCollision (birdAfter s) (tickPipe (birdAfter s) p) = true →
        (step s).gameOver = true ∧ (step s).running = false) ∧
    (∀ s2 : GameState, s2.running = false → step s2 = s2) ∧
    (∀ (r : ℚ) (s2 : GameState), s2.gameOver = true → spawnTick r s2 = s2) := by
  refine ⟨fun a q => rfl, ?_, fun s2 h2 => step_not_running s2 h2, ?_⟩
  · intro p hp hcol
    have hover : overAfter s = true := by
      have hany : s.pipes.any (fun q => detectCollision (birdAfter s) (tickPipe (birdAfter s) q)) = true :=
        List.any_eq_true.mpr ⟨p, hp, hcol⟩
      simp [overAfter, hany]
    rw [step_run s h]
    simp [hover]
  · intro r s2 h2
    simp [spawnTick, h2]

/-- Witness for C3 at a concrete colliding state. -/
theorem collision_aabb_gameover_same_tick_witness :
    (∀ (a : Rect) (q : Pipe), detectCollision a q =
        (decide (a.x < q.x + q.width) && decide (a.x + a.width > q.x) &&
          decide (a.y < q.y + q.height) && decide (a.y + a.height > q.y))) ∧
    (∀ p ∈ sRun.pipes,
        detectCollision (birdAfter sRun) (tickPipe (birdAfter sRun) p) = true →
        (step sRun).gameOver = true ∧ (step sRun).running = false) ∧
    (∀ s2 : GameState, s2.running = false → step s2 = s2) ∧
    (∀ (r : ℚ) (s2 : GameState), s2.gameOver = true → spawnTick r s2 = s2) :=
  collision_aabb_gameover_same_tick sRun rfl

/-- Claim C4: `flap` is a case analysis on the session state: while running
and not game over it replaces the velocity with the fixed impulse `-6` for
every prior velocity; while game over it performs a full restart (score 0,
exactly one fresh pair, velocity 0, bird at the initial position, running
true, game over false); while idle with assets loaded it starts a session;
while idle and not loaded it changes no state. -/
theorem flap_case_analysis (r : ℚ) (s : GameState) :
    (s.running = true → s.gameOver = false → flap r s = { s with velocityY := -6 }) ∧
    (s.gameOver = true → (s.running = true ∨ (s.showMenu = true ∧ s.loaded = true)) →
      flap r s = startGame r s) ∧
    ((startGame r s).score = 0 ∧ (startGame r s).pipes = [topPipe r, bottomPipe r] ∧
      (startGame r s).velocityY = 0 ∧
      (startGame r s).bird = { x := BIRD_X, y := BIRD_Y, width := BIRD_W, height := BIRD_H } ∧
      (startGame r s).running = true ∧ (startGame r s).gameOver = false ∧
      (startGame r s).showMenu = false) ∧
    (s.running = false → s.showMenu = true → s.loaded = true → flap r s = startGame r s) ∧
    (s.running = false → s.loaded = false → flap r s = s) := by
  refine ⟨?_, ?_, ?_, ?_, ?_⟩
  · intro hr hg
    simp [flap, hr, hg]
  · intro hg hcase
    rcases hcase with hr | ⟨hm, hl⟩
    · simp [flap, hr, hg]
    · cases hr : s.running
      · simp [flap, hr, hm, hl]
      · simp [flap, hr, hg]
  · exact ⟨rfl, rfl, rfl, rfl, rfl, rfl, rfl⟩
  · intro hr hm hl
    simp [flap, hr, hm, hl]
  · intro hr hl
    simp [flap, hr, hl]

/-- Claim C5: each spawn, with the random draw `r ∈ [0,1)`, places the upper
pipe at `gapY = -H/4 - r*(H/2)` (so `gapY` lies between `-H/4 - H/2` and
`-H/4`), the lower pipe at `gapY + H + openingSpace` with
`openingSpace = BOARD_H/4`; both members are appended with the same x (the
board's right edge), the same width and height, and `passed = false`; the
gap between them is exactly `openingSpace`, and the per-tick pipe update
preserves equality of x coordinates. -/
theorem spawn_pair_geometry (r : ℚ) (s : GameState) (h0 : 0 ≤ r) (h1 : r < 1) :
    (spawnPipePair r s).pipes = s.pipes ++ [topPipe r, bottomPipe r] ∧
    (topPipe r).y = -PIPE_H / 4 - r * (PIPE_H / 2) ∧
    (-PIPE_H / 4 - PIPE_H / 2 ≤ (topPipe r).y ∧ (topPipe r).y ≤ -PIPE_H / 4) ∧
    (bottomPipe r).y = (topPipe r).y + PIPE_H + BOARD_H / 4 ∧
    (bottomPipe r).y - ((topPipe r).y + (topPipe r).height) = BOARD_H / 4 ∧
    ((topPipe r).x = BOARD_W ∧ (bottomPipe r).x = BOARD_W) ∧
    ((topPipe r).width = (bottomPipe r).width ∧ (topPipe r).height = (bottomPipe r).height) ∧
    ((topPipe r).passed = false ∧ (bottomPipe r).passed = false) ∧
    (∀ (b : Rect) (p q : Pipe), p.x = q.x → (tickPipe b p).x = (tickPipe b q).x) := by
  refine ⟨rfl, rfl, ?_, ?_, ?_, ⟨rfl, rfl⟩, ⟨rfl, rfl⟩, ⟨rfl, rfl⟩, ?_⟩
  · constructor
    · show -PIPE_H / 4 - PIPE_H / 2 ≤ -PIPE_H / 4 - r * (PIPE_H / 2)
      simp only [PIPE_H]
      nlinarith
    · show -PIPE_H / 4 - r * (PIPE_H / 2) ≤ -PIPE_H / 4
      simp only [PIPE_H]
      nlinarith
  · show (-PIPE_H / 4 - r * (PIPE_H / 2)) + PIPE_H + BOARD_H / 4 =
      (-PIPE_H / 4 - r * (PIPE_H / 2)) + PIPE_H + BOARD_H / 4
    rfl
  · show ((-PIPE_H / 4 - r * (PIPE_H / 2)) + PIPE_H + BOARD_H / 4) -
      ((-PIPE_H / 4 - r * (PIPE_H / 2)) + PIPE_H) = BOARD_H / 4
    ring
  · intro b p q hpq
    rw [tickPipe_x, tickPipe_x, hpq]

/-- Witness for C5 at `r = 1/2` and the concrete state `sIdle`. -/
theorem spawn_pair_geometry_witness :
    (spawnPipePair (1/2) sIdle).pipes = sIdle.pipes ++ [topPipe (1/2), bottomPipe (1/2)] ∧
    (topPipe (1/2)).y = -PIPE_H / 4 - (1/2) * (PIPE_H / 2) ∧
    (-PIPE_H / 4 - PIPE_H / 2 ≤ (topPipe (1/2)).y ∧ (topPipe (1/2)).y ≤ -PIPE_H / 4) ∧
    (bottomPipe (1/2)).y = (topPipe (1/2)).y + PIPE_H + BOARD_H / 4 ∧
    (bottomPipe (1/2)).y - ((topPipe (1/2)).y + (topPipe (1/2)).height) = BOARD_H / 4 ∧
    ((topPipe (1/2)).x = BOARD_W ∧ (bottomPipe (1/2)).x = BOARD_W) ∧
    ((topPipe (1/2)).width = (bottomPipe (1/2)).width ∧
      (topPipe (1/2)).height = (bottomPipe (1/2)).height) ∧
    ((topPipe (1/2)).passed = false ∧ (bottomPipe (1/2)).passed = false) ∧
    (∀ (b : Rect) (p q : Pipe), p.x = q.x → (tickPipe b p).x = (tickPipe b q).x) :=
  spawn_pair_geometry (1/2) sIdle (by norm_num) (by norm_num)

/-- In a list sorted by ascending x, every survivor of
`dropWhile (x < c)` has `x ≥ c`. -/
theorem mem_dropWhile_not_lt (c : ℚ) (l : List Pipe)
    (hs : l.Pairwise (fun p q => p.x ≤ q.x)) :
    ∀ p ∈ l.dropWhile (fun p => decide (p.x < c)), ¬ p.x < c := by
  induction l with
  | nil => simp
  | cons a t ih =>
    obtain ⟨ha, ht⟩ := List.pairwise_cons.mp hs
    rw [List.dropWhile_cons]
    by_cases hac : a.x < c
    · rw [if_pos (decide_eq_true hac)]
      exact ih ht
    · rw [if_neg (by simp [hac])]
      intro p hp
      rcases List.mem_cons.mp hp with rfl | hp2
      · exact hac
      · have := ha p hp2
        intro hlt
        exact hac (lt_of_le_of_lt this hlt)

/-- Claim C6: at the end of every running tick no pipe whose right edge is
left of 0 remains: the survivors are exactly the result of dropping the
leading off-screen pipes of the moved list (so several can be reclaimed in
one tick), and the ascending-x order and the fixed width are themselves
preserved by the tick. -/
theorem recycle_removes_offscreen (s : GameState) (h : s.running = true)
    (hs : s.pipes.Pairwise (fun p q => p.x ≤ q.x))
    (hw : ∀ p ∈ s.pipes, p.width = PIPE_W) :
    (step s).pipes =
      (s.pipes.map (tickPipe (birdAfter s))).dropWhile (fun p => decide (p.x < -PIPE_W)) ∧
    (∀ p ∈ (step s).pipes, ¬ p.x + p.width < 0) ∧
    (step s).pipes.Pairwise (fun p q => p.x ≤ q.x) ∧
    (∀ p ∈ (step s).pipes, p.width = PIPE_W) := by
  have hpipes : (step s).pipes =
      (s.pipes.map (tickPipe (birdAfter s))).dropWhile (fun p => decide (p.x < -PIPE_W)) := by
    rw [step_run s h]
  have hmapsorted : (s.pipes.map (tickPipe (birdAfter s))).Pairwise (fun p q => p.x ≤ q.x) := by
    refine hs.map (tickPipe (birdAfter s)) ?_
    intro p q hpq
    rw [tickPipe_x, tickPipe_x]
    linarith
  have hmemwidth : ∀ p ∈ (step s).pipes, p.width = PIPE_W := by
    intro p hp
    rw [hpipes] at hp
    have hp2 : p ∈ s.pipes.map (tickPipe (birdAfter s)) :=
      (List.dropWhile_sublist _).subset hp
    obtain ⟨q, hq, rfl⟩ := List.mem_map.mp hp2
    rw [tickPipe_width]
    exact hw q hq
  refine ⟨hpipes, ?_, ?_, hmemwidth⟩
  · intro p hp
    have hnl : ¬ p.x < -PIPE_W := by
      refine mem_dropWhile_not_lt (-PIPE_W) _ hmapsorted p ?_
      rw [← hpipes]
      exact hp
    have hwp : p.width = PIPE_W := hmemwidth p hp
    rw [hwp]
    simp only [PIPE_W] at hnl ⊢
    intro habs
    exact hnl (by linarith)
  · rw [hpipes]
    exact hmapsorted.sublist (List.dropWhile_sublist _)

/-- Witness for C6 at the concrete state `sRecycle`, whose older pair is
reclaimed (two pipes in one tick). -/
theorem recycle_removes_offscreen_witness :
    (step sRecycle).pipes =
      (sRecycle.pipes.map (tickPipe (birdAfter sRecycle))).dropWhile
        (fun p => decide (p.x < -PIPE_W)) ∧
    (∀ p ∈ (step sRecycle).pipes, ¬ p.x + p.width < 0) ∧
    (step sRecycle).pipes.Pairwise (fun p q => p.x ≤ q.x) ∧
    (∀ p ∈ (step sRecycle).pipes, p.width = PIPE_W) :=
  recycle_removes_offscreen sRecycle rfl (by decide) (by decide)

/-- Claim C7: a tick that leaves the bird's y beyond
`BOARD_H - BIRD_H` ends the session: game over set, loop stopped, spawn
interval cleared, and neither a further tick nor the spawn callback changes
the pipe sequence; and there is no ceiling check — with no pipes on screen
and the updated y within the ground bound, a tick never sets game over, no
matter how negative y is. -/
theorem ground_fatal_no_ceiling (s : GameState) (h : s.running = true)
    (hg : s.bird.y + (s.velocityY + gravity) > BOARD_H - BIRD_H) :
    (step s).gameOver = true ∧ (step s).running = false ∧ (step s).spawnActive = false ∧
    step (step s) = step s ∧
    (∀ r : ℚ, spawnTick r (step s) = step s) ∧
    (∀ s2 : GameState, s2.running = true → s2.pipes = [] → s2.gameOver = false →
      s2.bird.y + (s2.velocityY + gravity) ≤ BOARD_H - BIRD_H → (step s2).gameOver = false) := by
  have hover : overAfter s = true := by
    have hdec : decide ((birdAfter s).y > BOARD_H - BIRD_H) = true := decide_eq_true hg
    simp [overAfter, hdec]
  have hflags : (step s).gameOver = true ∧ (step s).running = false ∧
      (step s).spawnActive = false := by
    rw [step_run s h]
    simp [hover]
  refine ⟨hflags.1, hflags.2.1, hflags.2.2, ?_, ?_, ?_⟩
  · exact step_not_running _ hflags.2.1
  · intro r
    simp [spawnTick, hflags.2.2]
  · intro s2 h2 hp hgo hle
    have hover2 : overAfter s2 = false := by
      have hdec : decide ((birdAfter s2).y > BOARD_H - BIRD_H) = false :=
        decide_eq_false (not_lt.mpr hle)
      simp [overAfter, hgo, hp, hdec]
    rw [step_run s2 h2]
    simp [hover2]

/-- Witness for C7 at the concrete state `sFall` (bird just above ground). -/
theorem ground_fatal_no_ceiling_witness :
    (step sFall).gameOver = true ∧ (step sFall).running = false ∧
    (step sFall).spawnActive = false ∧
    step (step sFall) = step sFall ∧
    (∀ r : ℚ, spawnTick r (step sFall) = step sFall) ∧
    (∀ s2 : GameState, s2.running = true → s2.pipes = [] → s2.gameOver = false →
      s2.bird.y + (s2.velocityY + gravity) ≤ BOARD_H - BIRD_H → (step s2).gameOver = false) :=
  ground_fatal_no_ceiling sFall rfl
    (by norm_num [sFall, sRun, sIdle, startGame, spawnPipePair, gravity, BOARD_H, BIRD_H])

/-- Counterexample to C8 as stated: in the concrete post-game-over state
`sOver` (one pair still on screen at x = 100), a subsequent tick leaves
every pipe's x at 100 — in-flight pipes do not continue to scroll left
after game over, because the loop is no longer re-armed. -/
theorem gameover_no_scroll_cex :
    sOver.gameOver = true ∧ sOver.running = false ∧
    sOver.pipes.map Pipe.x = [100, 100] ∧
    (step sOver).pipes.map Pipe.x = [100, 100] ∧
    step sOver = sOver := by
  exact ⟨rfl, rfl, rfl, rfl, rfl⟩

/-- Claim C8 (amended): once game over is flagged the spawn interval is
cleared in that same tick and the spawn callback never fires again, and the
update loop stops: pipes still in flight neither scroll nor get removed on
later ticks — the whole state is frozen until a restart resets the pipe
sequence to a single fresh pair. -/
theorem gameover_freezes_pipes (r : ℚ) (s : GameState)
    (hg : s.gameOver = true) (hr : s.running = false) :
    spawnTick r s = s ∧ step s = s ∧
    (∀ s2 : GameState, s2.running = true → (step s2).gameOver = true →
      (step s2).spawnActive = false ∧ (step s2).running = false) ∧
    (startGame r s).pipes = [topPipe r, bottomPipe r] := by
  refine ⟨by simp [spawnTick, hg], step_not_running s hr, ?_, rfl⟩
  intro s2 h2 hov2
  rw [step_run s2 h2] at hov2
  have hov : overAfter s2 = true := hov2
  rw [step_run s2 h2]
  constructor
  · show (s2.spawnActive && !overAfter s2) = false
    simp [hov]
  · show (!overAfter s2) = false
    simp [hov]

/-- Witness for the amended C8 at the concrete state `sOver`. -/
theorem gameover_freezes_pipes_witness :
    spawnTick 0 sOver = sOver ∧ step sOver = sOver ∧
    (∀ s2 : GameState, s2.running = true → (step s2).gameOver = true →
      (step s2).spawnActive = false ∧ (step s2).running = false) ∧
    (startGame 0 sOver).pipes = [topPipe 0, bottomPipe 0] :=
  gameover_freezes_pipes 0 sOver rfl rfl

/-- Appending one pair with equal x preserves the pair structure. -/
theorem pairedB_append_pair : ∀ (l : List Pipe) (a b : Pipe), a.x = b.x →
    pairedB l = true → pairedB (l ++ [a, b]) = true
  | [], a, b, hx, _ => by simp [pairedB, hx]
  | [_], _, _, _, hl => by simp [pairedB] at hl
  | p :: q :: rest, a, b, hx, hl => by
    simp only [pairedB, Bool.and_eq_true] at hl
    have hrec := pairedB_append_pair rest a b hx hl.2
    simp only [List.cons_append, pairedB, Bool.and_eq_true]
    exact ⟨hl.1, hrec⟩

/-- The per-tick pipe transformation preserves the pair structure. -/
theorem pairedB_map (bd : Rect) : ∀ l : List Pipe,
    pairedB l = true → pairedB (l.map (tickPipe bd)) = true
  | [], _ => rfl
  | [_], hl => by simp [pairedB] at hl
  | a :: b :: rest, hl => by
    simp only [pairedB, Bool.and_eq_true, decide_eq_true_eq] at hl
    have hrec := pairedB_map bd rest hl.2
    simp only [List.map_cons, pairedB, Bool.and_eq_true, decide_eq_true_eq]
    refine ⟨?_, hrec⟩
    rw [tickPipe_x, tickPipe_x, hl.1]

/-- Dropping a prefix by a condition that only looks at x preserves the
pair structure: both members of a pair are dropped or both are kept. -/
theorem pairedB_dropWhile (g : Pipe → Bool) (hg : ∀ p q, p.x = q.x → g p = g q) :
    ∀ l : List Pipe, pairedB l = true → pairedB (l.dropWhile g) = true
  | [], _ => rfl
  | [_], hl => by simp [pairedB] at hl
  | a :: b :: rest, hl => by
    simp only [pairedB, Bool.and_eq_true, decide_eq_true_eq] at hl
    obtain ⟨hx, hrest⟩ := hl
    rw [List.dropWhile_cons]
    by_cases hga : g a = true
    · rw [if_pos hga, List.dropWhile_cons, if_pos (by rw [← hg a b hx]; exact hga)]
      exact pairedB_dropWhile g hg rest hrest
    · rw [if_neg hga]
      simp only [pairedB, Bool.and_eq_true, decide_eq_true_eq]
      exact ⟨hx, hrest⟩

/-- A pair-structured list has even length. -/
theorem pairedB_even : ∀ l : List Pipe, pairedB l = true → 2 ∣ l.length
  | [], _ => ⟨0, rfl⟩
  | [_], hl => by simp [pairedB] at hl
  | _ :: _ :: rest, hl => by
    simp only [pairedB, Bool.and_eq_true] at hl
    obtain ⟨m, hm⟩ := pairedB_even rest hl.2
    exact ⟨m + 1, by simp [List.length_cons, hm]; ring⟩

/-- In a pair-structured list the members at indices 2k and 2k+1 share x. -/
theorem pairedB_get : ∀ (l : List Pipe), pairedB l = true →
    ∀ (k : Nat) (hk : 2*k+1 < l.length),
    (l.get ⟨2*k, by omega⟩).x = (l.get ⟨2*k+1, hk⟩).x
  | [], _, _, hk => by simp at hk
  | [_], hl, _, _ => by simp [pairedB] at hl
  | a :: b :: rest, hl, 0, hk => by
    simp only [pairedB, Bool.and_eq_true, decide_eq_true_eq] at hl
    exact hl.1
  | a :: b :: rest, hl, k+1, hk => by
    simp only [pairedB, Bool.and_eq_true, decide_eq_true_eq] at hl
    have hk2 : 2*k+1 < rest.length := by
      simp only [List.length_cons] at hk
      omega
    exact pairedB_get rest hl.2 k hk2

/-- Claim C9: the pipe sequence always decomposes into adjacent pairs with
equal x: a pair-structured sequence stays pair-structured under a tick
(uniform shift, then removal of whole leading pairs), under the spawn
callback (which appends two pipes with equal x atomically), under `flap`
and under a restart; a pair-structured sequence has even length and equal
x at indices 2k and 2k+1. -/
theorem pipes_paired_invariant (r : ℚ) (s : GameState) (hp : pairedB s.pipes = true) :
    pairedB (step s).pipes = true ∧
    pairedB (spawnPipePair r s).pipes = true ∧
    pairedB (spawnTick r s).pipes = true ∧
    pairedB (startGame r s).pipes = true ∧
    pairedB (flap r s).pipes = true ∧
    (∀ (b : Rect) (p : Pipe), (tickPipe b p).x = p.x + (-2)) ∧
    (∀ l : List Pipe, pairedB l = true → 2 ∣ l.length) ∧
    (∀ (l : List Pipe), pairedB l = true → ∀ (k : Nat) (hk : 2*k+1 < l.length),
      (l.get ⟨2*k, by omega⟩).x = (l.get ⟨2*k+1, hk⟩).x) := by
  have hspawn : pairedB (spawnPipePair r s).pipes = true := by
    simp only [spawnPipePair]
    exact pairedB_append_pair s.pipes (topPipe r) (bottomPipe r) rfl hp
  have hstart : ∀ s3 : GameState, pairedB (startGame r s3).pipes = true := by
    intro s3
    simp [startGame, spawnPipePair, pairedB]
    rfl
  have hstep : pairedB (step s).pipes = true := by
    cases hr : s.running
    · rw [step_not_running s hr]
      exact hp
    · rw [step_run s hr]
      refine pairedB_dropWhile _ ?_ _ (pairedB_map (birdAfter s) s.pipes hp)
      intro p q hpq
      rw [hpq]
  refine ⟨hstep, hspawn, ?_, hstart s, ?_, tickPipe_x, pairedB_even, pairedB_get⟩
  · by_cases hc : (s.spawnActive && !s.gameOver) = true
    · simp only [spawnTick, hc, if_true]
      exact hspawn
    · simp only [spawnTick, hc]
      simp only [Bool.not_eq_true] at hc
      simp [hc, hp]
  · simp only [flap]
    by_cases h1 : (!s.running) = true
    · rw [if_pos h1]
      by_cases h2 : (s.showMenu && s.loaded) = true
      · rw [if_pos h2]
        exact hstart s
      · rw [if_neg h2]
        exact hp
    · rw [if_neg h1]
      by_cases h3 : s.gameOver = true
      · rw [if_pos h3]
        exact hstart s
      · rw [if_neg h3]
        exact hp

/-- Witness for C9 at the concrete state `sRecycle` (two pairs). -/
theorem pipes_paired_invariant_witness :
    pairedB (step sRecycle).pipes = true ∧
    pairedB (spawnPipePair 0 sRecycle).pipes = true ∧
    pairedB (spawnTick 0 sRecycle).pipes = true ∧
    pairedB (startGame 0 sRecycle).pipes = true ∧
    pairedB (flap 0 sRecycle).pipes = true ∧
    (∀ (b : Rect) (p : Pipe), (tickPipe b p).x = p.x + (-2)) ∧
    (∀ l : List Pipe, pairedB l = true → 2 ∣ l.length) ∧
    (∀ (l : List Pipe), pairedB l = true → ∀ (k : Nat) (hk : 2*k+1 < l.length),
      (l.get ⟨2*k, by omega⟩).x = (l.get ⟨2*k+1, hk⟩).x) :=
  pipes_paired_invariant 0 sRecycle (by decide)

/-- Claim C10: scoring and collision are mutually exclusive per pipe and
per tick: the bird's x never changes during a tick and every pipe only
moves left, so `bird.x > pipe.x + pipe.width` (the scoring condition) is
stable once true and contradicts the collision test's
`bird.x < pipe.x + pipe.width`; a pipe flagged passed therefore satisfies
the crossing inequality (an invariant a tick preserves) and can never
trigger game over. -/
theorem passed_pipe_never_collides (s : GameState) (b : Rect) (p : Pipe)
    (hinv : ∀ q ∈ s.pipes, q.passed = true → s.bird.x > q.x + q.width)
    (h : s.running = true) :
    ¬ (b.x > p.x + p.width ∧ detectCollision b p = true) ∧
    (p ∈ s.pipes → p.passed = true → detectCollision s.bird p = false) ∧
    (step s).bird.x = s.bird.x ∧
    (b.x > p.x + p.width → b.x > (tickPipe b p).x + (tickPipe b p).width) ∧
    (newlyPassed b p = true → detectCollision b (tickPipe b p) = false) ∧
    (∀ q ∈ (step s).pipes, q.passed = true → (step s).bird.x > q.x + q.width) := by
  have hbirdx : (step s).bird.x = s.bird.x := by
    rw [step_run s h]
    rfl
  refine ⟨?_, ?_, hbirdx, ?_, ?_, ?_⟩
  · rintro ⟨hgt, hcol⟩
    simp only [detectCollision, Bool.and_eq_true, decide_eq_true_eq] at hcol
    exact absurd hcol.1.1.1 (not_lt.mpr (le_of_lt hgt))
  · intro hmem hpass
    have hgt := hinv p hmem hpass
    have hnot : ¬ (s.bird.x < p.x + p.width) := not_lt.mpr (le_of_lt hgt)
    simp [detectCollision, hnot]
  · intro hgt
    rw [tickPipe_x, tickPipe_width]
    linarith
  · intro hnp
    have hgt : b.x > p.x + (-2) + p.width := by
      simp only [newlyPassed, Bool.and_eq_true, decide_eq_true_eq] at hnp
      exact hnp.2
    have hnot : ¬ (b.x < (tickPipe b p).x + (tickPipe b p).width) := by
      rw [tickPipe_x, tickPipe_width]
      linarith
    simp [detectCollision, hnot]
  · intro q hq hpass
    rw [step_run s h] at hq
    have hq2 : q ∈ s.pipes.map (tickPipe (birdAfter s)) :=
      (List.dropWhile_sublist _).subset hq
    obtain ⟨q0, hq0, rfl⟩ := List.mem_map.mp hq2
    rw [tickPipe_passed] at hpass
    rw [hbirdx, tickPipe_x, tickPipe_width]
    simp only [Bool.or_eq_true] at hpass
    rcases hpass with hq0p | hnew
    · have := hinv q0 hq0 hq0p
      linarith
    · have hgt : (birdAfter s).x > q0.x + (-2) + q0.width := by
        simp only [newlyPassed, Bool.and_eq_true, decide_eq_true_eq] at hnew
        exact hnew.2
      have hbx : (birdAfter s).x = s.bird.x := rfl
      rw [hbx] at hgt
      linarith

/-- Witness for C10 at the concrete state `sRecycle`. -/
theorem passed_pipe_never_collides_witness :
    ¬ (sRecycle.bird.x > (topPipe 0).x + (topPipe 0).width ∧
        detectCollision sRecycle.bird (topPipe 0) = true) ∧
    (topPipe 0 ∈ sRecycle.pipes → (topPipe 0).passed = true →
      detectCollision sRecycle.bird (topPipe 0) = false) ∧
    (step sRecycle).bird.x = sRecycle.bird.x ∧
    (sRecycle.bird.x > (topPipe 0).x + (topPipe 0).width →
      sRecycle.bird.x > (tickPipe sRecycle.bird (topPipe 0)).x +
        (tickPipe sRecycle.bird (topPipe 0)).width) ∧
    (newlyPassed sRecycle.bird (topPipe 0) = true →
      detectCollision sRecycle.bird (tickPipe sRecycle.bird (topPipe 0)) = false) ∧
    (∀ q ∈ (step sRecycle).pipes, q.passed = true →
      (step sRecycle).bird.x > q.x + q.width) :=
  passed_pipe_never_collides sRecycle sRecycle.bird (topPipe 0)
    (by
      intro q hq hqp
      have hbx : sRecycle.bird.x = 45 := by
        norm_num [sRecycle, sRun, sIdle, startGame, spawnPipePair, BIRD_X, BOARD_W]
      rw [hbx]
      fin_cases hq
      · norm_num [PIPE_W]
      · norm_num [PIPE_W]
      · simp at hqp
      · simp at hqp)
    rfl

end Flappy
